import Mathlib

/-!
# aiwechat-vercel: command dispatch, prompt storage and the timeout bridge

A shallow embedding of `chat/chat.go` and `db/db.go`.

Modelling conventions.

* A Go `string` is a `Str`, a list of Unicode code points. The webhook delivers
  UTF-8 text; on such text `strings.HasPrefix`, `len` and slicing at the end of
  a matched prefix agree with their code-point counterparts used here.
* A Go `error` is an `Option Str`: `none` is `nil`, `some e` carries `e.Error()`.
* Package-level variables (`db.Cache`, `db.RedisClient`, `config.Cache`) are
  threaded explicitly: an operation takes the state and returns the new one.
* `map` iteration order is not fixed by Go, so `range actionMap` is modelled
  by an explicit list giving the order in which the keys are visited.
* Package `config` is not part of the embedded sources. Its constants and
  functions are fields of the structure `Config`, a parameter of every
  definition that uses them.
-/

set_option linter.dupNamespace false

namespace AiWechat

/-- A Go string, as a sequence of code points. -/
abbrev Str := List Char

/-- A Go `error` value: `none` is `nil`. -/
abbrev GoError := Option Str

/-! ## Library functions used by the sources -/

/-- The predicate `unicode.IsSpace`: the Latin-1 spaces and the code points
with the White_Space property. -/
def isSpace (c : Char) : Bool :=
  let n := c.toNat
  n == 0x09 || n == 0x0A || n == 0x0B || n == 0x0C || n == 0x0D || n == 0x20 ||
  n == 0x85 || n == 0xA0 || n == 0x1680 || (0x2000 ≤ n && n ≤ 0x200A) ||
  n == 0x2028 || n == 0x2029 || n == 0x202F || n == 0x205F || n == 0x3000

/-- The function `strings.TrimSpace`: leading and trailing white space removed. -/
def TrimSpace (s : Str) : Str :=
  ((s.dropWhile isSpace).reverse.dropWhile isSpace).reverse

/-- The function `strings.HasPrefix(s, pre)`. -/
def HasPrefix : Str → Str → Bool
  | _, [] => true
  | [], _ :: _ => false
  | c :: s, d :: pre => c == d && HasPrefix s pre

/-! ## `sync.Map` holding strings -/

/-- A `sync.Map` whose keys and values are strings, as an association list
with at most one entry for a key. -/
abbrev SyncMap := List (Str × Str)

namespace SyncMap

/-- The method `Load`. -/
def Load (m : SyncMap) (key : Str) : Option Str :=
  match m with
  | [] => none
  | (k, v) :: rest => if k = key then some v else Load rest key

/-- The method `Delete`. -/
def Delete (m : SyncMap) (key : Str) : SyncMap :=
  m.filter (fun e => e.1 ≠ key)

/-- The method `Store`: the entry for `key` is replaced. -/
def Store (m : SyncMap) (key val : Str) : SyncMap :=
  (key, val) :: Delete m key

end SyncMap

/-! ## The remote key-value store -/

/-- One Redis entry: the value and the expiry it was written with, in
nanoseconds as `time.Duration` counts them. -/
structure RedisEntry where
  val : Str
  expires : Nat
  deriving DecidableEq, Repr

/-- The contents of the Redis server behind a `*redis.Client`. -/
abbrev Redis := List (Str × RedisEntry)

namespace Redis

/-- The error `redis.Nil`, returned by `Get` for a missing key. -/
def Nil : Str := "redis: nil".toList

/-- The call `client.Get(ctx, key).Result()`: the value and `nil`, or `""` and
`redis.Nil` when the key is missing. -/
def Get (r : Redis) (key : Str) : Str × GoError :=
  match r with
  | [] => ([], some Nil)
  | (k, e) :: rest => if k = key then (e.val, none) else Get rest key

/-- The call `client.Del(ctx, key)`. -/
def Del (r : Redis) (key : Str) : Redis :=
  r.filter (fun e => e.1 ≠ key)

/-- The call `client.Set(ctx, key, val, expires)`. -/
def Set (r : Redis) (key val : Str) (expires : Nat) : Redis :=
  (key, ⟨val, expires⟩) :: Del r key

end Redis

/-- The constant `time.Second`, in nanoseconds. -/
def Second : Nat := 1000000000

/-- The constant `time.Minute`, in nanoseconds. -/
def Minute : Nat := 60 * Second

/-! ## Package `db` -/

namespace db

/-- The constant `PROMPT_KEY`. -/
def PROMPT_KEY : Str := "prompt".toList

/-- The constant `MSG_KEY`. -/
def MSG_KEY : Str := "msg".toList

/-- The struct `Msg`. -/
structure Msg where
  Role : Str
  Msg : Str
  deriving DecidableEq, Repr

/-- The package variables of `db`: the in-process `Cache` and `RedisClient`
(`none` when it is `nil`). `ChatDbInstance` is set by `init` to a `RedisChatDb`
over that same client exactly when `NewRedisChatDb` has set `RedisClient`, so
it is non-nil exactly when `RedisClient` is. -/
structure State where
  Cache : SyncMap
  RedisClient : Option Redis
  deriving DecidableEq, Repr

/-- The function `GetValueWithMemory`. -/
def GetValueWithMemory (st : State) (key : Str) : Str × Bool :=
  match st.Cache.Load key with
  | some value => (value, true)
  | none => ([], false)

/-- The function `SetValueWithMemory`. -/
def SetValueWithMemory (st : State) (key val : Str) : State :=
  { st with Cache := st.Cache.Store key val }

/-- The function `DeleteKeyWithMemory`. -/
def DeleteKeyWithMemory (st : State) (key : Str) : State :=
  { st with Cache := st.Cache.Delete key }

/-- The function `GetValue`. On a memory miss with no client the named results
are returned as they stand, `""` and `nil`; with a client, whatever `Get`
returned is written to the memory cache, also when it returned an error. -/
def GetValue (st : State) (key : Str) : (Str × GoError) × State :=
  match GetValueWithMemory st key with
  | (val, true) => ((val, none), st)
  | (val, false) =>
    match st.RedisClient with
    | none => ((val, none), st)
    | some client =>
      let (val, err) := client.Get key
      ((val, err), SetValueWithMemory st key val)

/-- The function `SetValue`. The error of `client.Set` is the result; the
modelled store accepts every write, so it is `nil`. -/
def SetValue (st : State) (key val : Str) (expires : Nat) : GoError × State :=
  let st := SetValueWithMemory st key val
  match st.RedisClient with
  | none => (none, st)
  | some client =>
    let expires := if expires = 0 then Minute * 30 else expires
    (none, { st with RedisClient := some (client.Set key val expires) })

/-- The function `DeleteKey`. -/
def DeleteKey (st : State) (key : Str) : State :=
  let st := DeleteKeyWithMemory st key
  match st.RedisClient with
  | none => st
  | some client => { st with RedisClient := some (client.Del key) }

/-- The key `fmt.Sprintf("%s:%s:%s", PROMPT_KEY, userId, botType)`. -/
def promptKey (userId botType : Str) : Str :=
  PROMPT_KEY ++ ':' :: userId ++ ':' :: botType

/-- The key `fmt.Sprintf("%v:%v:%v", MSG_KEY, botType, userId)`. -/
def msgKey (botType userId : Str) : Str :=
  MSG_KEY ++ ':' :: botType ++ ':' :: userId

/-- The function `SetPrompt`. -/
def SetPrompt (st : State) (userId botType prompt : Str) : State :=
  (SetValue st (promptKey userId botType) prompt 0).2

/-- The function `GetPrompt`. -/
def GetPrompt (st : State) (userId botType : Str) : (Str × GoError) × State :=
  GetValue st (promptKey userId botType)

/-- The function `RemovePrompt`. -/
def RemovePrompt (st : State) (userId botType : Str) : State :=
  DeleteKey st (promptKey userId botType)

/-- The JSON codec `sonic`, an external library: `Marshal` and `Unmarshal` on
`[]Msg`. -/
structure Sonic where
  Marshal : List Msg → Str × GoError
  Unmarshal : Str → List Msg × GoError

/-- The method `RedisChatDb.GetMsgList` on the client `r`. -/
def GetMsgList (sonic : Sonic) (r : Redis) (botType userId : Str) : List Msg × GoError :=
  match r.Get (msgKey botType userId) with
  | (_, some err) => ([], some err)
  | (result, none) =>
    match sonic.Unmarshal result with
    | (_, some err) => ([], some err)
    | (msgList, none) => (msgList, none)

/-- The method `RedisChatDb.SetMsgList` on the client `r`. -/
def SetMsgList (sonic : Sonic) (r : Redis) (botType userId : Str) (msgList : List Msg) : Redis :=
  match sonic.Marshal msgList with
  | (_, some _) => r
  | (res, none) => r.Set (msgKey botType userId) res (Minute * 30)

end db

/-! ## Package `config` -/

/-- The parts of package `config` that `chat` uses. The package is outside the
embedded sources, so its constants and functions are parameters.
`GetUserBotType` resolves a user's backend from the key-value store and may
populate the in-process cache while reading, so it passes the state on. -/
structure Config where
  Bot_Type_Key : Str
  Bot_Type_Gpt : Str
  Bot_Type_Spark : Str
  Bot_Type_Qwen : Str
  Bot_Type_Gemini : Str
  Wx_Command_Help : Str
  Wx_Command_Gpt : Str
  Wx_Command_Spark : Str
  Wx_Command_Qwen : Str
  Wx_Command_Gemini : Str
  Wx_Command_Prompt : Str
  Wx_Command_RmPrompt : Str
  Wx_Command_GetPrompt : Str
  GetWxHelpReply : Str
  GetBotWelcomeReply : Str → Str
  CheckBotConfig : Str → Str × GoError
  GetUserBotType : db.State → Str → Str × db.State
  IsSupportPrompt : Str → Bool

/-! ## Package `chat` -/

namespace chat

/-- A command handler `func(param, userId string) string`, with the `db`
state it reads and writes. -/
abbrev Handler := Str → Str → db.State → Str × db.State

/-- The function `SwitchUserBot`. -/
def SwitchUserBot (cfg : Config) (userId botType : Str) (st : db.State) : Str × db.State :=
  match cfg.CheckBotConfig botType with
  | (_, some err) => (err, st)
  | (_, none) =>
    let st := (db.SetValue st (cfg.Bot_Type_Key ++ ':' :: userId) botType 0).2
    (cfg.GetBotWelcomeReply botType, st)

/-- The function `SetPrompt`. -/
def SetPrompt (cfg : Config) (param userId : Str) (st : db.State) : Str × db.State :=
  let (botType, st) := cfg.GetUserBotType st userId
  if botType = cfg.Bot_Type_Gpt then
    (botType ++ " 设置prompt成功".toList, db.SetPrompt st userId botType param)
  else if botType = cfg.Bot_Type_Qwen then
    (botType ++ " 设置prompt成功".toList, db.SetPrompt st userId botType param)
  else if botType = cfg.Bot_Type_Spark then
    (botType ++ " 设置prompt成功".toList, db.SetPrompt st userId botType param)
  else
    (botType ++ " 不支持设置system prompt".toList, st)

/-- The function `RmPrompt`. -/
def RmPrompt (cfg : Config) (_param userId : Str) (st : db.State) : Str × db.State :=
  let (botType, st) := cfg.GetUserBotType st userId
  (botType ++ " 删除prompt成功".toList, db.RemovePrompt st userId botType)

/-- The function `GetPrompt`. -/
def GetPrompt (cfg : Config) (_param userId : Str) (st : db.State) : Str × db.State :=
  let (botType, st) := cfg.GetUserBotType st userId
  match db.GetPrompt st userId botType with
  | ((_, some _), st) => (botType ++ " 当前未设置prompt".toList, st)
  | ((prompt, none), st) => (botType ++ " 获取prompt成功，prompt：".toList ++ prompt, st)

/-- The variable `actionMap`: the entries of the map literal, in the order
they are written. -/
def actionMap (cfg : Config) : List (Str × Handler) :=
  [ (cfg.Wx_Command_Help, fun _ _ st => (cfg.GetWxHelpReply, st)),
    (cfg.Wx_Command_Gpt, fun _ userId st => SwitchUserBot cfg userId cfg.Bot_Type_Gpt st),
    (cfg.Wx_Command_Spark, fun _ userId st => SwitchUserBot cfg userId cfg.Bot_Type_Spark st),
    (cfg.Wx_Command_Qwen, fun _ userId st => SwitchUserBot cfg userId cfg.Bot_Type_Qwen st),
    (cfg.Wx_Command_Gemini, fun _ userId st => SwitchUserBot cfg userId cfg.Bot_Type_Gemini st),
    (cfg.Wx_Command_Prompt, SetPrompt cfg),
    (cfg.Wx_Command_RmPrompt, RmPrompt cfg),
    (cfg.Wx_Command_GetPrompt, GetPrompt cfg) ]

/-- The keys of `actionMap`. -/
def actionKeys (cfg : Config) : List Str :=
  (actionMap cfg).map Prod.fst

/-- The index expression `actionMap[action]`; `none` is the nil function a
missing key yields. -/
def actionMapAt (cfg : Config) (action : Str) : Option Handler :=
  ((actionMap cfg).find? (fun e => e.1 = action)).map Prod.snd

/-- The function `isAction`. The loop `for key := range actionMap` visits the
keys in the order `order`, which Go leaves unspecified. -/
def isAction (order : List Str) (msg : Str) : Str × Str × Bool :=
  match order with
  | [] => ([], [], false)
  | key :: rest =>
    if HasPrefix msg key then
      (msg.take key.length, TrimSpace (msg.drop key.length), true)
    else isAction rest msg

/-- The function `DoAction`, with the iteration order of `isAction`. The
result is `none` when the call of a nil handler would panic. -/
def DoAction (cfg : Config) (order : List Str) (userId msg : Str) (st : db.State) :
    Option ((Str × Bool) × db.State) :=
  match isAction order msg with
  | (action, param, true) =>
    match actionMapAt cfg action with
    | some f => let (r, st) := f param userId st; some ((r, true), st)
    | none => none
  | (_, _, false) => some (([], false), st)

/-- No key of the table is a prefix of another key. -/
def PrefixFree (keys : List Str) : Prop :=
  ∀ p ∈ keys, ∀ q ∈ keys, p ≠ q → HasPrefix q p = false

instance (keys : List Str) : Decidable (PrefixFree keys) := by
  unfold PrefixFree; infer_instance

/-! ### The timeout bridge -/

/-- What a call `f(userID, msg)` of the work function does on a logical clock:
`some (d, r)` sends the result `r` on `resChan` `d` nanoseconds after the
goroutine starts; `none` never sends. -/
abbrev Work := Str → Str → Option (Nat × Str)

/-- The deadline `5 * time.Second` of the `select`. -/
def deadline : Nat := 5 * Second

/-- What a returning call of `WithTimeChat` leaves behind: the reply, the
pending-result cache `config.Cache`, the time of the return and whether the
work function was started. -/
structure Outcome where
  reply : Str
  Cache : SyncMap
  returnedAt : Nat
  started : Bool
  deriving DecidableEq, Repr

/-- The function `WithTimeChat`, called at time `now` with `config.Cache` equal
to `cache`. The `select` takes the channel case when the result arrives before
the timer fires and the timer case when the timer fires first; when both are
ready together Go picks either, which `tie` decides. In the timer case the
argument `<-resChan` of `Store` is received before the store and the return,
so the call goes on only when the work function has sent; the result is `none`
when the call never returns. -/
def WithTimeChat (tie : Bool) (cache : SyncMap) (now : Nat) (userID msg : Str) (f : Work) :
    Option Outcome :=
  match cache.Load (userID ++ msg) with
  | some r => some ⟨r, cache.Delete (userID ++ msg), now, false⟩
  | none =>
    match f userID msg with
    | none => none
    | some (d, res) =>
      if d < deadline ∨ (d = deadline ∧ tie = true) then
        some ⟨res, cache, now + d, true⟩
      else
        some ⟨[], cache.Store (userID ++ msg) res, now + d, true⟩

/-! ### Conversation history -/

/-- The function `GetMsgListWithDb`. `db.ChatDbInstance != nil` is
`RedisClient` being set, see `db.State`. -/
def GetMsgListWithDb {T : Type} (cfg : Config) (sonic : db.Sonic) (botType userId : Str)
    (msg : T) (f : T → db.Msg) (f2 : db.Msg → T) (st : db.State) : List T × db.State :=
  let dbList : List db.Msg := []
  let (dbList, st) :=
    if cfg.IsSupportPrompt botType then
      match db.GetPrompt st userId botType with
      | ((prompt, none), st) => (dbList ++ [⟨"system".toList, prompt⟩], st)
      | ((_, some _), st) => (dbList, st)
    else (dbList, st)
  let dbList :=
    match st.RedisClient with
    | some client =>
      match db.GetMsgList sonic client botType userId with
      | (list, none) => dbList ++ list
      | (_, some _) => dbList
    | none => dbList
  let dbList := dbList ++ [f msg]
  (dbList.map f2, st)

end chat

/-! ## What the store holds -/

namespace db

/-- The prompt stored for a user and backend, as the process sees it: the
entry of the in-process cache and, without one, the entry of the remote
store. -/
def storedPrompt (st : State) (userId botType : Str) : Option Str :=
  match st.Cache.Load (promptKey userId botType) with
  | some v => some v
  | none =>
    match st.RedisClient with
    | none => none
    | some client =>
      match client.Get (promptKey userId botType) with
      | (v, none) => some v
      | (_, some _) => none

end db

/-! ## Concrete configurations for evaluating the definitions -/

/-- A configuration with slash commands and four backends, of which only
`gpt` has its credential. -/
def sampleConfig : Config where
  Bot_Type_Key := "botType".toList
  Bot_Type_Gpt := "gpt".toList
  Bot_Type_Spark := "spark".toList
  Bot_Type_Qwen := "qwen".toList
  Bot_Type_Gemini := "gemini".toList
  Wx_Command_Help := "/help".toList
  Wx_Command_Gpt := "/gpt".toList
  Wx_Command_Spark := "/spark".toList
  Wx_Command_Qwen := "/qwen".toList
  Wx_Command_Gemini := "/gemini".toList
  Wx_Command_Prompt := "/prompt".toList
  Wx_Command_RmPrompt := "/rmPrompt".toList
  Wx_Command_GetPrompt := "/getPrompt".toList
  GetWxHelpReply := "commands: /help /gpt /spark /qwen /gemini".toList
  GetBotWelcomeReply := fun botType => "now talking to ".toList ++ botType
  CheckBotConfig := fun botType =>
    if botType = "gpt".toList then (botType, none)
    else (botType, some (botType ++ " is not configured".toList))
  GetUserBotType := fun st userId =>
    match db.GetValue st ("botType".toList ++ ':' :: userId) with
    | ((bot, none), st) => (if bot = [] then "gpt".toList else bot, st)
    | ((_, some _), st) => ("gpt".toList, st)
  IsSupportPrompt := fun botType =>
    botType = "gpt".toList || botType = "qwen".toList || botType = "spark".toList

/-- The sample configuration with the GPT command shortened to `/g`, a prefix
of the Gemini command `/gemini`. -/
def overlapConfig : Config :=
  { sampleConfig with Wx_Command_Gpt := "/g".toList }

/-- The sample configuration with a configuration error that does not name
the backend. -/
def tersConfig : Config :=
  { sampleConfig with
    CheckBotConfig := fun botType =>
      if botType = "gpt".toList then (botType, none)
      else (botType, some "missing credential".toList) }

/-- A stored history of two turns. -/
def sampleHistory : List db.Msg :=
  [⟨"user".toList, "hi".toList⟩, ⟨"assistant".toList, "hello".toList⟩]

/-- The JSON text of `sampleHistory`. -/
def sampleHistoryJson : Str :=
  "[\x7b\"Role\":\"user\",\"Msg\":\"hi\"\x7d,\x7b\"Role\":\"assistant\",\"Msg\":\"hello\"\x7d]".toList

/-- The codec on the one document used in the examples; every other text is
rejected. -/
def sampleSonic : db.Sonic where
  Marshal := fun l =>
    if l = sampleHistory then (sampleHistoryJson, none) else ([], some "unsupported".toList)
  Unmarshal := fun s =>
    if s = sampleHistoryJson then (sampleHistory, none) else ([], some "invalid JSON".toList)

/-- A process without a remote store and with nothing cached. -/
def emptyState : db.State := ⟨[], none⟩

/-- A process with an empty remote store and nothing cached. -/
def emptyRedisState : db.State := ⟨[], some []⟩

/-- A process whose remote store holds `sampleHistory` for the pair `gpt`, `u`,
after the prompt `You are terse.` was set for that pair. -/
def sampleStoredState : db.State :=
  db.SetPrompt ⟨[], some [(db.msgKey "gpt".toList "u".toList, ⟨sampleHistoryJson, Minute * 30⟩)]⟩
    "u".toList "gpt".toList "You are terse.".toList

/-- A process without a remote store in which the user `u` is on `gemini`. -/
def geminiState : db.State := ⟨[("botType:u".toList, "gemini".toList)], none⟩

/-- A work function that answers `late answer` after seven seconds. -/
def slowWork : chat.Work := fun _ _ => some (7 * Second, "late answer".toList)

/-- A work function that answers `quick answer` after two seconds. -/
def quickWork : chat.Work := fun _ _ => some (2 * Second, "quick answer".toList)

/-- A work function that never answers. -/
def stuckWork : chat.Work := fun _ _ => none

end AiWechat

/-! ## Lemmas on the library functions -/

namespace AiWechat

theorem HasPrefix_iff (s pre : Str) : HasPrefix s pre = true ↔ pre <+: s := by
  induction pre generalizing s with
  | nil => simp [HasPrefix]
  | cons d pre ih =>
    cases s with
    | nil => simp [HasPrefix]
    | cons c s =>
      simp only [HasPrefix, Bool.and_eq_true, beq_iff_eq, ih, List.cons_prefix_cons]
      constructor
      · rintro ⟨h, h2⟩; exact ⟨h.symm, h2⟩
      · rintro ⟨h, h2⟩; exact ⟨h.symm, h2⟩

theorem take_of_HasPrefix {s pre : Str} (h : HasPrefix s pre = true) :
    s.take pre.length = pre :=
  (List.prefix_iff_eq_take.mp ((HasPrefix_iff s pre).mp h)).symm

namespace SyncMap

theorem Load_Delete (m : SyncMap) (key : Str) : Load (Delete m key) key = none := by
  induction m with
  | nil => rfl
  | cons e m ih =>
    obtain ⟨k, v⟩ := e
    by_cases hk : k = key
    · simpa [Delete, List.filter_cons, hk] using ih
    · simpa [Delete, List.filter_cons, hk, Load] using ih

theorem Load_Store (m : SyncMap) (key val : Str) : Load (Store m key val) key = some val := by
  simp [Store, Load]

theorem Delete_of_Load_none (m : SyncMap) (key : Str) (h : Load m key = none) :
    Delete m key = m := by
  induction m with
  | nil => rfl
  | cons e m ih =>
    obtain ⟨k, v⟩ := e
    by_cases hk : k = key
    · simp [Load, hk] at h
    · simp only [Load, hk, if_false] at h
      have hm : List.filter (fun e => decide (e.1 ≠ key)) m = m := ih h
      show List.filter (fun e => decide (e.1 ≠ key)) ((k, v) :: m) = (k, v) :: m
      rw [List.filter_cons_of_pos (by simpa using hk), hm]

end SyncMap

/-! ## Command dispatch -/

namespace chat

theorem prefix_unique {keys : List Str} (hfree : PrefixFree keys) {m p q : Str}
    (hp : p ∈ keys) (hq : q ∈ keys)
    (hmp : HasPrefix m p = true) (hmq : HasPrefix m q = true) : p = q := by
  by_contra hne
  have hp2 := (HasPrefix_iff m p).mp hmp
  have hq2 := (HasPrefix_iff m q).mp hmq
  rcases le_total p.length q.length with hle | hle
  · have h := (HasPrefix_iff q p).mpr (List.prefix_of_prefix_length_le hp2 hq2 hle)
    rw [hfree p hp q hq hne] at h
    exact Bool.noConfusion h
  · have h := (HasPrefix_iff p q).mpr (List.prefix_of_prefix_length_le hq2 hp2 hle)
    rw [hfree q hq p hp (fun e => hne e.symm)] at h
    exact Bool.noConfusion h

theorem isAction_of_mem {keys : List Str} (hfree : PrefixFree keys) {m p : Str}
    (hp : p ∈ keys) (hmp : HasPrefix m p = true) :
    ∀ order : List Str, (∀ k ∈ order, k ∈ keys) → p ∈ order →
      isAction order m = (p, TrimSpace (m.drop p.length), true) := by
  intro order
  induction order with
  | nil => intro _ h; simp at h
  | cons k rest ih =>
    intro hsub hmem
    by_cases hk : HasPrefix m k = true
    · have hkp : k = p := prefix_unique hfree (hsub k (List.mem_cons_self _ _)) hp hk hmp
      subst hkp
      simp [isAction, hk, take_of_HasPrefix hk]
    · have hne : p ≠ k := fun e => hk (e ▸ hmp)
      have hrest : p ∈ rest := by
        rcases List.mem_cons.mp hmem with h | h
        · exact absurd h hne
        · exact h
      simp only [isAction, hk, Bool.false_eq_true, if_false]
      exact ih (fun k hk => hsub k (List.mem_cons_of_mem _ hk)) hrest

theorem isAction_of_no_match {m : Str} :
    ∀ order : List Str, (∀ k ∈ order, HasPrefix m k = false) →
      isAction order m = ([], [], false) := by
  intro order
  induction order with
  | nil => intro _; rfl
  | cons k rest ih =>
    intro h
    simp only [isAction, h k (List.mem_cons_self _ _), Bool.false_eq_true, if_false]
    exact ih (fun k hk => h k (List.mem_cons_of_mem _ hk))

theorem find_entry_of_mem_keys {α : Type} (l : List (Str × α)) (p : Str)
    (hp : p ∈ l.map Prod.fst) : ∃ e, l.find? (fun e => e.1 = p) = some e := by
  induction l with
  | nil => simp at hp
  | cons e l ih =>
    by_cases he : e.1 = p
    · refine ⟨e, ?_⟩
      rw [List.find?_cons_of_pos _ (by simpa using he)]
    · have hp2 : p ∈ l.map Prod.fst := by
        simp only [List.map_cons, List.mem_cons] at hp
        rcases hp with h | h
        · exact absurd h.symm he
        · exact h
      obtain ⟨f, hf⟩ := ih hp2
      refine ⟨f, ?_⟩
      rw [List.find?_cons_of_neg _ (by simpa using he)]
      exact hf

/-- C1, refuted as stated: with the GPT command `/g` and the Gemini command
`/gemini`, the key `/gemini` is a prefix of the message `/gemini hi`, yet in
the written order of the table `isAction` returns the key `/g` with the
parameter `emini hi`, and `DoAction` runs the GPT handler, which switches the
user to `gpt`, where the handler of `/gemini` replies that `gemini` is not
configured and writes nothing; in the reversed order the key `/gemini` is
returned. -/
theorem isAction_overlap_takes_other_key :
    "/gemini".toList ∈ actionKeys overlapConfig ∧
    HasPrefix "/gemini hi".toList "/gemini".toList = true ∧
    isAction (actionKeys overlapConfig) "/gemini hi".toList =
      ("/g".toList, "emini hi".toList, true) ∧
    isAction (actionKeys overlapConfig).reverse "/gemini hi".toList =
      ("/gemini".toList, "hi".toList, true) ∧
    DoAction overlapConfig (actionKeys overlapConfig) "u".toList "/gemini hi".toList
        emptyState =
      some (("now talking to gpt".toList, true),
        ⟨[("botType:u".toList, "gpt".toList)], none⟩) ∧
    (actionMapAt overlapConfig "/gemini".toList).map
        (fun f => f "hi".toList "u".toList emptyState) =
      some ("gemini is not configured".toList, emptyState) := by
  decide

/-- C1, amended: when no key of `actionMap` is a prefix of another key, then
for every message `m` and every key `p` of `actionMap` that is a prefix of `m`,
whatever order the map is iterated in, `isAction m` returns
`(p, TrimSpace(m[len(p):]), true)` and `DoAction` returns the flag `true` with
the reply of the handler that the map literal gives for `p`, applied to that
parameter and the user. -/
theorem DoAction_of_command_prefix (cfg : Config) (order : List Str)
    (horder : order.Perm (actionKeys cfg)) (hfree : PrefixFree (actionKeys cfg))
    (m p userId : Str) (st : db.State)
    (hp : p ∈ actionKeys cfg) (hpre : HasPrefix m p = true) :
    isAction order m = (p, TrimSpace (m.drop p.length), true) ∧
    ∃ f, (actionMap cfg).find? (fun e => e.1 = p) = some (p, f) ∧
      DoAction cfg order userId m st =
        some (((f (TrimSpace (m.drop p.length)) userId st).1, true),
          (f (TrimSpace (m.drop p.length)) userId st).2) := by
  have hact : isAction order m = (p, TrimSpace (m.drop p.length), true) :=
    isAction_of_mem hfree hp hpre order (fun k hk => horder.mem_iff.mp hk) (horder.mem_iff.mpr hp)
  refine ⟨hact, ?_⟩
  obtain ⟨e, he⟩ := find_entry_of_mem_keys (actionMap cfg) p hp
  have hkey : e.1 = p := by
    have := List.find?_some he
    simpa using this
  refine ⟨e.2, ?_, ?_⟩
  · rw [he, ← hkey]
  · have hf2 : actionMapAt cfg p = some e.2 := by
      simp [actionMapAt, he]
    simp only [DoAction, hact, hf2]

/-- C1, amended, at concrete inputs: under the reversed iteration order of the
sample table the message `/prompt  You are terse. ` reaches the handler of
`/prompt`, which stores the prompt for the user's backend `gpt`; `/help`
replies with the help text and `/gemini` with the configuration error. -/
theorem DoAction_of_command_prefix_witness :
    (isAction (actionKeys sampleConfig).reverse "/prompt  You are terse. ".toList =
        ("/prompt".toList, "You are terse.".toList, true) ∧
      ∃ f, (actionMap sampleConfig).find? (fun e => e.1 = "/prompt".toList) =
          some ("/prompt".toList, f) ∧
        DoAction sampleConfig (actionKeys sampleConfig).reverse "u".toList
            "/prompt  You are terse. ".toList emptyState =
          some (((f "You are terse.".toList "u".toList emptyState).1, true),
            (f "You are terse.".toList "u".toList emptyState).2)) ∧
    DoAction sampleConfig (actionKeys sampleConfig).reverse "u".toList
        "/prompt  You are terse. ".toList emptyState =
      some (("gpt 设置prompt成功".toList, true),
        ⟨[("prompt:u:gpt".toList, "You are terse.".toList)], none⟩) ∧
    DoAction sampleConfig (actionKeys sampleConfig).reverse "u".toList "/help".toList
        emptyState =
      some (("commands: /help /gpt /spark /qwen /gemini".toList, true), emptyState) ∧
    DoAction sampleConfig (actionKeys sampleConfig).reverse "u".toList "/gemini".toList
        emptyState =
      some (("gemini is not configured".toList, true), emptyState) :=
  ⟨ DoAction_of_command_prefix sampleConfig (actionKeys sampleConfig).reverse
      (List.reverse_perm _) (by decide) "/prompt  You are terse. ".toList "/prompt".toList
      "u".toList emptyState (by decide) (by decide),
    by decide, by decide, by decide⟩

theorem isAction_order_independent {keys : List Str} (hfree : PrefixFree keys)
    (order1 order2 : List Str) (h1 : order1.Perm keys) (h2 : order2.Perm keys) (m : Str) :
    isAction order1 m = isAction order2 m := by
  by_cases hex : ∃ p ∈ keys, HasPrefix m p = true
  · obtain ⟨p, hp, hmp⟩ := hex
    rw [isAction_of_mem hfree hp hmp order1 (fun k hk => h1.mem_iff.mp hk) (h1.mem_iff.mpr hp),
      isAction_of_mem hfree hp hmp order2 (fun k hk => h2.mem_iff.mp hk) (h2.mem_iff.mpr hp)]
  · have hno : ∀ k ∈ keys, HasPrefix m k = false := by
      intro k hk
      cases hv : HasPrefix m k with
      | false => rfl
      | true => exact absurd ⟨k, hk, hv⟩ hex
    rw [isAction_of_no_match order1 (fun k hk => hno k (h1.mem_iff.mp hk)),
      isAction_of_no_match order2 (fun k hk => hno k (h2.mem_iff.mp hk))]

theorem PrefixFree_of_order_independent {keys : List Str}
    (h : ∀ order1 order2 : List Str, order1.Perm keys → order2.Perm keys →
      ∀ m, isAction order1 m = isAction order2 m) : PrefixFree keys := by
  intro p hp q hq hne
  cases hv : HasPrefix q p with
  | false => rfl
  | true =>
    exfalso
    have hqq : HasPrefix q q = true := (HasPrefix_iff q q).mpr (List.prefix_refl q)
    obtain ⟨s1, t1, e1⟩ := List.append_of_mem hp
    obtain ⟨s2, t2, e2⟩ := List.append_of_mem hq
    have e := h (p :: (s1 ++ t1)) (q :: (s2 ++ t2))
      (e1 ▸ List.perm_middle.symm) (e2 ▸ List.perm_middle.symm) q
    simp only [isAction, hv, hqq, if_true, take_of_HasPrefix hv, take_of_HasPrefix hqq] at e
    exact hne (congrArg Prod.fst e)

/-- C2, refuted as stated: with the GPT command `/g` and the Gemini command
`/gemini` the table is built all the same, it holds both keys, it is not
prefix-free, and the message `/gemini` is dispatched to either command
depending on the iteration order. -/
theorem actionMap_overlap_is_built :
    actionKeys overlapConfig =
      ["/help".toList, "/g".toList, "/spark".toList, "/qwen".toList, "/gemini".toList,
        "/prompt".toList, "/rmPrompt".toList, "/getPrompt".toList] ∧
    ¬ PrefixFree (actionKeys overlapConfig) ∧
    isAction (actionKeys overlapConfig) "/gemini".toList =
      ("/g".toList, "emini".toList, true) ∧
    isAction (actionKeys overlapConfig).reverse "/gemini".toList =
      ("/gemini".toList, [], true) := by
  decide

/-- C2, amended: building `actionMap` checks nothing, its keys are the eight
command constants whatever their values; and the keys being prefix-free is
exactly the condition under which `isAction` gives the same result for every
iteration order of the map. -/
theorem actionMap_keys_unchecked (cfg : Config) :
    actionKeys cfg =
      [cfg.Wx_Command_Help, cfg.Wx_Command_Gpt, cfg.Wx_Command_Spark, cfg.Wx_Command_Qwen,
        cfg.Wx_Command_Gemini, cfg.Wx_Command_Prompt, cfg.Wx_Command_RmPrompt,
        cfg.Wx_Command_GetPrompt] ∧
    (PrefixFree (actionKeys cfg) ↔
      ∀ order1 order2 : List Str, order1.Perm (actionKeys cfg) → order2.Perm (actionKeys cfg) →
        ∀ m, isAction order1 m = isAction order2 m) :=
  ⟨rfl, fun hfree order1 order2 h1 h2 m => isAction_order_independent hfree order1 order2 h1 h2 m,
    PrefixFree_of_order_independent⟩

/-- C2, amended, at a concrete input: the sample table is prefix-free, so the
message `/gpt hello` is dispatched alike in the written and in the reversed
order. -/
theorem actionMap_keys_unchecked_witness :
    isAction (actionKeys sampleConfig) "/gpt hello".toList =
      isAction (actionKeys sampleConfig).reverse "/gpt hello".toList :=
  (actionMap_keys_unchecked sampleConfig).2.mp (by decide) (actionKeys sampleConfig)
    (actionKeys sampleConfig).reverse (List.Perm.refl _) (List.reverse_perm _)
    "/gpt hello".toList

end chat

/-! ## The timeout bridge -/

namespace chat

theorem SyncMap_Delete_Store (m : SyncMap) (key val : Str) (h : m.Load key = none) :
    SyncMap.Delete (SyncMap.Store m key val) key = m := by
  have h1 : SyncMap.Delete m key = m := SyncMap.Delete_of_Load_none m key h
  show List.filter (fun e => decide (e.1 ≠ key)) ((key, val) :: SyncMap.Delete m key) = m
  rw [List.filter_cons_of_neg (by simp), h1]
  exact h1

/-- C3: when the pending-result cache has no entry for `userID+msg` and the
work function delivers `r` before the five-second deadline, `WithTimeChat`
returns `r` and leaves the cache as it was. -/
theorem WithTimeChat_before_deadline (tie : Bool) (cache : SyncMap) (now : Nat)
    (userID msg : Str) (f : Work) (d : Nat) (r : Str)
    (hmiss : cache.Load (userID ++ msg) = none)
    (hf : f userID msg = some (d, r)) (hd : d < deadline) :
    WithTimeChat tie cache now userID msg f = some ⟨r, cache, now + d, true⟩ := by
  simp [WithTimeChat, hmiss, hf, hd]

/-- C3, at a concrete input: a two-second answer on an empty cache. -/
theorem WithTimeChat_before_deadline_witness :
    WithTimeChat false [] 0 "u".toList "hello".toList quickWork =
      some ⟨"quick answer".toList, [], 0 + 2 * Second, true⟩ :=
  WithTimeChat_before_deadline false [] 0 "u".toList "hello".toList quickWork (2 * Second)
    "quick answer".toList rfl rfl (by decide)

/-- C4: when the cache has no entry for `userID+msg` and the work function
delivers `r` after the deadline, the first `WithTimeChat` returns `""` and
leaves the cache mapping `userID+msg` to `r`; a second call with the same
`userID` and `msg` returns `r` without starting its work function, whatever
that function is, and leaves the cache with no entry for `userID+msg`, equal to
the cache before the first call. -/
theorem WithTimeChat_late_then_retry (tie : Bool) (cache : SyncMap) (now : Nat)
    (userID msg : Str) (f : Work) (d : Nat) (r : Str)
    (hmiss : cache.Load (userID ++ msg) = none)
    (hf : f userID msg = some (d, r)) (hd : deadline < d) :
    ∃ o1, WithTimeChat tie cache now userID msg f = some o1 ∧ o1.reply = [] ∧
      o1.started = true ∧ o1.Cache.Load (userID ++ msg) = some r ∧
      ∀ (tie2 : Bool) (now2 : Nat) (g : Work),
        ∃ o2, WithTimeChat tie2 o1.Cache now2 userID msg g = some o2 ∧ o2.reply = r ∧
          o2.started = false ∧ o2.Cache.Load (userID ++ msg) = none ∧ o2.Cache = cache := by
  have hnlt : ¬ d < deadline := Nat.not_lt.mpr (Nat.le_of_lt hd)
  have hne : ¬ d = deadline := Nat.ne_of_gt hd
  refine ⟨⟨[], cache.Store (userID ++ msg) r, now + d, true⟩, ?_, rfl, rfl,
    SyncMap.Load_Store _ _ _, ?_⟩
  · simp [WithTimeChat, hmiss, hf, hnlt, hne]
  · intro tie2 now2 g
    refine ⟨⟨r, (cache.Store (userID ++ msg) r).Delete (userID ++ msg), now2, false⟩,
      ?_, rfl, rfl, SyncMap.Load_Delete _ _, SyncMap_Delete_Store _ _ _ hmiss⟩
    simp [WithTimeChat, SyncMap.Load_Store]

/-- C4, at a concrete input: a seven-second answer on an empty cache, then a
retry. -/
theorem WithTimeChat_late_then_retry_witness :
    ∃ o1, WithTimeChat false [] 0 "u".toList "hello".toList slowWork = some o1 ∧
      o1.reply = [] ∧ o1.started = true ∧
      o1.Cache.Load ("u".toList ++ "hello".toList) = some "late answer".toList ∧
      ∀ (tie2 : Bool) (now2 : Nat) (g : Work),
        ∃ o2, WithTimeChat tie2 o1.Cache now2 "u".toList "hello".toList g = some o2 ∧
          o2.reply = "late answer".toList ∧ o2.started = false ∧
          o2.Cache.Load ("u".toList ++ "hello".toList) = none ∧ o2.Cache = [] :=
  WithTimeChat_late_then_retry false [] 0 "u".toList "hello".toList slowWork (7 * Second)
    "late answer".toList rfl rfl (by decide)

/-- C5, on the code: when the work function delivers after `d` nanoseconds with
`d` beyond the deadline, `WithTimeChat` returns at `now + d`, later than
`now + deadline`: the timer case receives from `resChan` before it returns. A
work function that never delivers keeps the call from returning at all. -/
theorem WithTimeChat_returns_with_work (tie : Bool) (cache : SyncMap) (now : Nat)
    (userID msg : Str) (f : Work) (d : Nat) (r : Str)
    (hmiss : cache.Load (userID ++ msg) = none)
    (hf : f userID msg = some (d, r)) (hd : deadline < d) :
    (WithTimeChat tie cache now userID msg f).map Outcome.returnedAt = some (now + d) ∧
    now + deadline < now + d ∧
    WithTimeChat tie cache now userID msg stuckWork = none := by
  have hnlt : ¬ d < deadline := Nat.not_lt.mpr (Nat.le_of_lt hd)
  have hne : ¬ d = deadline := Nat.ne_of_gt hd
  refine ⟨?_, Nat.add_lt_add_left hd now, ?_⟩
  · simp [WithTimeChat, hmiss, hf, hnlt, hne]
  · simp [WithTimeChat, hmiss, stuckWork]

/-- C5, at a concrete input: a seven-second answer is returned to the caller
after seven seconds, not after five. -/
theorem WithTimeChat_returns_with_work_witness :
    (WithTimeChat false [] 0 "u".toList "hello".toList slowWork).map Outcome.returnedAt =
      some (0 + 7 * Second) ∧
    0 + deadline < 0 + 7 * Second ∧
    WithTimeChat false [] 0 "u".toList "hello".toList stuckWork = none :=
  WithTimeChat_returns_with_work false [] 0 "u".toList "hello".toList slowWork (7 * Second)
    "late answer".toList rfl rfl (by decide)

end chat

/-! ## Prompts and history -/

namespace db

theorem GetPrompt_of_stored (st : State) (userId botType p : Str)
    (hp : storedPrompt st userId botType = some p) :
    ∃ st2, GetPrompt st userId botType = ((p, none), st2) ∧ st2.RedisClient = st.RedisClient := by
  unfold storedPrompt at hp
  unfold GetPrompt GetValue GetValueWithMemory
  cases hload : st.Cache.Load (promptKey userId botType) with
  | some v =>
    rw [hload] at hp
    simp only [Option.some.injEq] at hp
    exact ⟨st, by simp [hp], rfl⟩
  | none =>
    rw [hload] at hp
    cases hclient : st.RedisClient with
    | none => simp [hclient] at hp
    | some client =>
      simp only [hclient] at hp
      rcases hget : client.Get (promptKey userId botType) with ⟨v, e⟩
      rw [hget] at hp
      cases e with
      | some e => simp at hp
      | none =>
        simp only [Option.some.injEq] at hp
        refine ⟨SetValueWithMemory st (promptKey userId botType) v, ?_, ?_⟩
        · simp [hget, hp]
        · simp [SetValueWithMemory, hclient]

theorem storedPrompt_SetPrompt (st : State) (userId botType prompt : Str) :
    storedPrompt (SetPrompt st userId botType prompt) userId botType = some prompt := by
  unfold storedPrompt SetPrompt SetValue SetValueWithMemory
  cases h : st.RedisClient <;> simp [h, SyncMap.Load_Store]

end db

namespace chat

/-- C6: with the prompt `p` stored for the user and backend and the history
`h` stored under the pair's history key, `GetMsgListWithDb` returns, for a
backend that supports prompts, `f2` of the system turn with `p`, then `f2` of
every turn of `h` in stored order, then `f2 (f m)`; for a backend that does not,
the same without the system turn. -/
theorem GetMsgListWithDb_layout {T : Type} (cfg : Config) (sonic : db.Sonic)
    (botType userId : Str) (m : T) (f : T → db.Msg) (f2 : db.Msg → T) (st : db.State)
    (p : Str) (client : Redis) (s : Str) (h : List db.Msg)
    (hp : db.storedPrompt st userId botType = some p)
    (hclient : st.RedisClient = some client)
    (hs : client.Get (db.msgKey botType userId) = (s, none))
    (hh : sonic.Unmarshal s = (h, none)) :
    (GetMsgListWithDb cfg sonic botType userId m f f2 st).1 =
      if cfg.IsSupportPrompt botType then
        f2 ⟨"system".toList, p⟩ :: (h.map f2 ++ [f2 (f m)])
      else h.map f2 ++ [f2 (f m)] := by
  have hlist : db.GetMsgList sonic client botType userId = (h, none) := by
    simp [db.GetMsgList, hs, hh]
  obtain ⟨st2, hget, hst2⟩ := db.GetPrompt_of_stored st userId botType p hp
  by_cases hsup : cfg.IsSupportPrompt botType = true
  · simp [GetMsgListWithDb, hsup, hget, hst2, hclient, hlist]
  · simp [GetMsgListWithDb, hsup, hclient, hlist]

/-- C6, at a concrete input: the prompt `You are terse.` and a stored history
of two turns on the backend `gpt`. -/
theorem GetMsgListWithDb_layout_witness :
    (GetMsgListWithDb sampleConfig sampleSonic "gpt".toList "u".toList
        (⟨"user".toList, "how are you".toList⟩ : db.Msg) id id sampleStoredState).1 =
      if sampleConfig.IsSupportPrompt "gpt".toList then
        id ⟨"system".toList, "You are terse.".toList⟩ ::
          (sampleHistory.map id ++ [id (id ⟨"user".toList, "how are you".toList⟩)])
      else sampleHistory.map id ++ [id (id ⟨"user".toList, "how are you".toList⟩)] :=
  GetMsgListWithDb_layout sampleConfig sampleSonic "gpt".toList "u".toList
    ⟨"user".toList, "how are you".toList⟩ id id sampleStoredState "You are terse.".toList
    [(db.promptKey "u".toList "gpt".toList, ⟨"You are terse.".toList, Minute * 30⟩),
      (db.msgKey "gpt".toList "u".toList, ⟨sampleHistoryJson, Minute * 30⟩)]
    sampleHistoryJson sampleHistory (by decide) (by decide) (by decide) (by decide)

end chat

/-! ## Prompt lookup, backend switch and prompt setting -/

namespace chat

/-- C7, on the code: without a remote store a prompt that was never set, and
one that was set and removed, is returned as `""` with a nil error, the very
result of a prompt set to the empty string; with a remote store the first miss
returns `redis.Nil` and caches `""`, and the next lookup returns `""` with a
nil error. `chat.GetPrompt` then reports an empty prompt as found and
`GetMsgListWithDb` prepends a system turn with the empty text. -/
theorem GetPrompt_unset_is_nil_error :
    db.storedPrompt emptyState "u".toList "gpt".toList = none ∧
    db.GetPrompt emptyState "u".toList "gpt".toList = (([], none), emptyState) ∧
    (db.GetPrompt (db.SetPrompt emptyState "u".toList "gpt".toList []) "u".toList
      "gpt".toList).1 = ([], none) ∧
    (db.GetPrompt (db.RemovePrompt
      (db.SetPrompt emptyState "u".toList "gpt".toList "You are terse.".toList)
      "u".toList "gpt".toList) "u".toList "gpt".toList).1 = ([], none) ∧
    (db.GetPrompt emptyRedisState "u".toList "gpt".toList).1 = ([], some Redis.Nil) ∧
    (db.GetPrompt (db.GetPrompt emptyRedisState "u".toList "gpt".toList).2 "u".toList
      "gpt".toList).1 = ([], none) ∧
    (GetPrompt sampleConfig [] "u".toList emptyState).1 =
      "gpt 获取prompt成功，prompt：".toList ∧
    (GetMsgListWithDb sampleConfig sampleSonic "gpt".toList "u".toList
        (⟨"user".toList, "hi".toList⟩ : db.Msg) id id emptyState).1 =
      [⟨"system".toList, []⟩, ⟨"user".toList, "hi".toList⟩] := by
  decide

/-- C8, refuted as stated: with a configuration whose error for a missing
credential is `missing credential`, switching to `spark` leaves the state as
it was and replies with that message, which does not contain `spark`. -/
theorem SwitchUserBot_reply_without_name :
    tersConfig.CheckBotConfig "spark".toList =
      ("spark".toList, some "missing credential".toList) ∧
    SwitchUserBot tersConfig "u".toList "spark".toList geminiState =
      ("missing credential".toList, geminiState) ∧
    ¬ "spark".toList <:+: (SwitchUserBot tersConfig "u".toList "spark".toList geminiState).1 := by
  decide

/-- C8, amended: when `config.CheckBotConfig(botType)` returns the error `e`,
`SwitchUserBot` returns exactly the message of `e` as its reply and leaves the
whole `db` state, with the user's stored assignment, as it was; the reply
contains the backend's name if and only if that message does. -/
theorem SwitchUserBot_unconfigured (cfg : Config) (userId botType : Str) (st : db.State)
    (a e : Str) (he : cfg.CheckBotConfig botType = (a, some e)) :
    SwitchUserBot cfg userId botType st = (e, st) ∧
    (botType <:+: (SwitchUserBot cfg userId botType st).1 ↔ botType <:+: e) := by
  have h : SwitchUserBot cfg userId botType st = (e, st) := by
    simp [SwitchUserBot, he]
  exact ⟨h, by rw [h]⟩

/-- C8, amended, at a concrete input: a user on `gemini` asks for `spark`,
which has no credential in the sample configuration, whose error names the
backend. -/
theorem SwitchUserBot_unconfigured_witness :
    (SwitchUserBot sampleConfig "u".toList "spark".toList geminiState =
      ("spark is not configured".toList, geminiState) ∧
      geminiState.Cache.Load "botType:u".toList = some "gemini".toList) ∧
    "spark".toList <:+: (SwitchUserBot sampleConfig "u".toList "spark".toList geminiState).1 :=
  ⟨⟨(SwitchUserBot_unconfigured sampleConfig "u".toList "spark".toList geminiState
      "spark".toList "spark is not configured".toList (by decide)).1, by decide⟩,
    (SwitchUserBot_unconfigured sampleConfig "u".toList "spark".toList geminiState
      "spark".toList "spark is not configured".toList (by decide)).2.mpr
      ⟨[], " is not configured".toList, by decide⟩⟩

/-- C9: `SetPrompt` resolves the user's backend `botType` first. When
`botType` is none of the GPT, Qwen and Spark backends it writes nothing, the
state is the one the resolution left, and the reply is `botType` followed by
the refusal text. When it is one of the three, the state is that of
`db.SetPrompt(userId, botType, param)`, a following `db.GetPrompt` for the pair
returns `param` with a nil error, and the reply reports success. -/
theorem SetPrompt_by_backend (cfg : Config) (param userId : Str) (st : db.State) :
    ((cfg.GetUserBotType st userId).1 ≠ cfg.Bot_Type_Gpt →
      (cfg.GetUserBotType st userId).1 ≠ cfg.Bot_Type_Qwen →
      (cfg.GetUserBotType st userId).1 ≠ cfg.Bot_Type_Spark →
      SetPrompt cfg param userId st =
        ((cfg.GetUserBotType st userId).1 ++ " 不支持设置system prompt".toList,
          (cfg.GetUserBotType st userId).2) ∧
      (cfg.GetUserBotType st userId).1 <:+: (SetPrompt cfg param userId st).1) ∧
    ((cfg.GetUserBotType st userId).1 = cfg.Bot_Type_Gpt ∨
      (cfg.GetUserBotType st userId).1 = cfg.Bot_Type_Qwen ∨
      (cfg.GetUserBotType st userId).1 = cfg.Bot_Type_Spark →
      SetPrompt cfg param userId st =
        ((cfg.GetUserBotType st userId).1 ++ " 设置prompt成功".toList,
          db.SetPrompt (cfg.GetUserBotType st userId).2 userId
            (cfg.GetUserBotType st userId).1 param) ∧
      (db.GetPrompt (SetPrompt cfg param userId st).2 userId
        (cfg.GetUserBotType st userId).1).1 = (param, none)) := by
  rcases hres : cfg.GetUserBotType st userId with ⟨bt, st1⟩
  constructor
  · intro h1 h2 h3
    have h : SetPrompt cfg param userId st = (bt ++ " 不支持设置system prompt".toList, st1) := by
      simp [SetPrompt, hres, h1, h2, h3]
    refine ⟨h, ?_⟩
    rw [h]
    exact (List.prefix_append bt _).isInfix
  · intro hsup
    have h : SetPrompt cfg param userId st =
        (bt ++ " 设置prompt成功".toList, db.SetPrompt st1 userId bt param) := by
      unfold SetPrompt
      rw [hres]
      simp only
      split_ifs with c1 c2 c3
      · rfl
      · rfl
      · rfl
      · rcases hsup with h | h | h
        · exact absurd h c1
        · exact absurd h c2
        · exact absurd h c3
    refine ⟨h, ?_⟩
    rw [h]
    obtain ⟨st2, hget, _⟩ := db.GetPrompt_of_stored _ userId bt param
      (db.storedPrompt_SetPrompt st1 userId bt param)
    rw [hget]

/-- C9, at concrete inputs: a user on `gemini` is refused and the state is
untouched; a user on `gpt` gets the prompt stored and can read it back. -/
theorem SetPrompt_by_backend_witness :
    (SetPrompt sampleConfig "You are terse.".toList "u".toList geminiState =
        ("gemini 不支持设置system prompt".toList, geminiState) ∧
      "gemini".toList <:+:
        (SetPrompt sampleConfig "You are terse.".toList "u".toList geminiState).1) ∧
    (SetPrompt sampleConfig "You are terse.".toList "u".toList emptyState =
        ("gpt 设置prompt成功".toList,
          db.SetPrompt emptyState "u".toList "gpt".toList "You are terse.".toList) ∧
      (db.GetPrompt (SetPrompt sampleConfig "You are terse.".toList "u".toList emptyState).2
        "u".toList "gpt".toList).1 = ("You are terse.".toList, none)) :=
  ⟨(SetPrompt_by_backend sampleConfig "You are terse.".toList "u".toList geminiState).1
      (by decide) (by decide) (by decide),
    (SetPrompt_by_backend sampleConfig "You are terse.".toList "u".toList emptyState).2
      (by decide)⟩

end chat

/-! ## Storage keys -/

namespace db

theorem append_sep_inj {c : Char} :
    ∀ (a1 a2 b1 b2 : Str), c ∉ a1 → c ∉ a2 → a1 ++ c :: b1 = a2 ++ c :: b2 →
      a1 = a2 ∧ b1 = b2 := by
  intro a1
  induction a1 with
  | nil =>
    intro a2 b1 b2 _ h2 e
    cases a2 with
    | nil => exact ⟨rfl, by simpa using e⟩
    | cons x a2 =>
      simp only [List.nil_append, List.cons_append, List.cons.injEq] at e
      exact absurd (e.1 ▸ List.mem_cons_self _ _) h2
  | cons x a1 ih =>
    intro a2 b1 b2 h1 h2 e
    cases a2 with
    | nil =>
      simp only [List.nil_append, List.cons_append, List.cons.injEq] at e
      exact absurd (e.1 ▸ List.mem_cons_self _ _) h1
    | cons y a2 =>
      simp only [List.cons_append, List.cons.injEq] at e
      obtain ⟨r1, r2⟩ := ih a2 b1 b2 (fun hm => h1 (List.mem_cons_of_mem _ hm))
        (fun hm => h2 (List.mem_cons_of_mem _ hm)) e.2
      exact ⟨by rw [e.1, r1], r2⟩

theorem append_sep_inj_right {c : Char} (a1 a2 b1 b2 : Str) (h1 : c ∉ b1) (h2 : c ∉ b2)
    (e : a1 ++ c :: b1 = a2 ++ c :: b2) : a1 = a2 ∧ b1 = b2 := by
  have e2 := congrArg List.reverse e
  simp only [List.reverse_append, List.reverse_cons, List.append_assoc, List.singleton_append]
    at e2
  obtain ⟨r1, r2⟩ := append_sep_inj _ _ _ _ (by simpa using h1) (by simpa using h2) e2
  exact ⟨List.reverse_injective r2, List.reverse_injective r1⟩

theorem msgKey_inj {botType1 userId1 botType2 userId2 : Str}
    (h : (':' ∉ botType1 ∧ ':' ∉ botType2) ∨ (':' ∉ userId1 ∧ ':' ∉ userId2))
    (e : msgKey botType1 userId1 = msgKey botType2 userId2) :
    botType1 = botType2 ∧ userId1 = userId2 := by
  unfold msgKey at e
  simp only [List.append_assoc, List.cons_append, List.append_cancel_left_eq,
    List.cons.injEq, true_and] at e
  rcases h with ⟨h1, h2⟩ | ⟨h1, h2⟩
  · exact append_sep_inj _ _ _ _ h1 h2 e
  · exact append_sep_inj_right _ _ _ _ h1 h2 e

theorem promptKey_inj {botType1 userId1 botType2 userId2 : Str}
    (h : (':' ∉ botType1 ∧ ':' ∉ botType2) ∨ (':' ∉ userId1 ∧ ':' ∉ userId2))
    (e : promptKey userId1 botType1 = promptKey userId2 botType2) :
    botType1 = botType2 ∧ userId1 = userId2 := by
  unfold promptKey at e
  simp only [List.append_assoc, List.cons_append, List.append_cancel_left_eq,
    List.cons.injEq, true_and] at e
  rcases h with ⟨h1, h2⟩ | ⟨h1, h2⟩
  · exact (append_sep_inj_right _ _ _ _ h1 h2 e).symm
  · exact (append_sep_inj _ _ _ _ h1 h2 e).symm

/-- C10, refuted as stated: the pairs (`a:b`, `c`) and (`a`, `b:c`) differ and
have the same history key `msg:a:b:c`; the pairs with user `a` on backend `b:c`
and user `a:b` on backend `c` differ and have the same prompt key
`prompt:a:b:c`, so the prompt set for the one is read through the other. -/
theorem storage_keys_collide :
    ("a:b".toList, "c".toList) ≠ ("a".toList, "b:c".toList) ∧
    msgKey "a:b".toList "c".toList = msgKey "a".toList "b:c".toList ∧
    promptKey "a".toList "b:c".toList = promptKey "a:b".toList "c".toList ∧
    (GetPrompt (SetPrompt emptyState "a".toList "b:c".toList "You are terse.".toList)
      "a:b".toList "c".toList).1 = ("You are terse.".toList, none) := by
  decide

/-- C10, amended: when neither backend name contains a colon, or neither user
identity does, two different pairs of backend and user have different history
keys and different prompt keys. -/
theorem storage_keys_unique (botType1 userId1 botType2 userId2 : Str)
    (h : (':' ∉ botType1 ∧ ':' ∉ botType2) ∨ (':' ∉ userId1 ∧ ':' ∉ userId2))
    (hne : (botType1, userId1) ≠ (botType2, userId2)) :
    msgKey botType1 userId1 ≠ msgKey botType2 userId2 ∧
    promptKey userId1 botType1 ≠ promptKey userId2 botType2 := by
  constructor
  · intro e
    obtain ⟨r1, r2⟩ := msgKey_inj h e
    exact hne (by rw [r1, r2])
  · intro e
    obtain ⟨r1, r2⟩ := promptKey_inj h e
    exact hne (by rw [r1, r2])

/-- C10, amended, at a concrete input: the users `u:1` and `u` on the backends
`gpt` and `qwen`. -/
theorem storage_keys_unique_witness :
    msgKey "gpt".toList "u:1".toList ≠ msgKey "qwen".toList "u".toList ∧
    promptKey "u:1".toList "gpt".toList ≠ promptKey "u".toList "qwen".toList :=
  storage_keys_unique "gpt".toList "u:1".toList "qwen".toList "u".toList
    (Or.inl (by decide)) (by decide)

end db

end AiWechat
